import Mathlib

/-! ## GF(2^8) doubling and the fixed MixColumns multipliers

`xtime` is multiplication by `x` in the AES field GF(2^8)
modulo `x^8 + x^4 + x^3 + x + 1` (0x11b); `gmulN` multiplies by the
constant `N` as used by MixColumns and its inverse. -/
def xtime (b : Nat) : Nat := (2 * b ^^^ (if 128 ≤ b then 27 else 0)) % 256

def gmul2 (b : Nat) : Nat := xtime b

def gmul3 (b : Nat) : Nat := xtime b ^^^ b

def gmul9 (b : Nat) : Nat := xtime (xtime (xtime b)) ^^^ b

def gmul11 (b : Nat) : Nat := xtime (xtime (xtime b)) ^^^ xtime b ^^^ b

def gmul13 (b : Nat) : Nat := xtime (xtime (xtime b)) ^^^ xtime (xtime b) ^^^ b

def gmul14 (b : Nat) : Nat := xtime (xtime (xtime b)) ^^^ xtime (xtime b) ^^^ xtime b

/-! ## The AES S-box -/
def sboxTable : List Nat :=
  [
   99, 124, 119, 123, 242, 107, 111, 197, 48, 1, 103, 43, 254, 215, 171, 118,
   202, 130, 201, 125, 250, 89, 71, 240, 173, 212, 162, 175, 156, 164, 114, 192,
   183, 253, 147, 38, 54, 63, 247, 204, 52, 165, 229, 241, 113, 216, 49, 21,
   4, 199, 35, 195, 24, 150, 5, 154, 7, 18, 128, 226, 235, 39, 178, 117,
   9, 131, 44, 26, 27, 110, 90, 160, 82, 59, 214, 179, 41, 227, 47, 132,
   83, 209, 0, 237, 32, 252, 177, 91, 106, 203, 190, 57, 74, 76, 88, 207,
   208, 239, 170, 251, 67, 77, 51, 133, 69, 249, 2, 127, 80, 60, 159, 168,
   81, 163, 64, 143, 146, 157, 56, 245, 188, 182, 218, 33, 16, 255, 243, 210,
   205, 12, 19, 236, 95, 151, 68, 23, 196, 167, 126, 61, 100, 93, 25, 115,
   96, 129, 79, 220, 34, 42, 144, 136, 70, 238, 184, 20, 222, 94, 11, 219,
   224, 50, 58, 10, 73, 6, 36, 92, 194, 211, 172, 98, 145, 149, 228, 121,
   231, 200, 55, 109, 141, 213, 78, 169, 108, 86, 244, 234, 101, 122, 174, 8,
   186, 120, 37, 46, 28, 166, 180, 198, 232, 221, 116, 31, 75, 189, 139, 138,
   112, 62, 181, 102, 72, 3, 246, 14, 97, 53, 87, 185, 134, 193, 29, 158,
   225, 248, 152, 17, 105, 217, 142, 148, 155, 30, 135, 233, 206, 85, 40, 223,
   140, 161, 137, 13, 191, 230, 66, 104, 65, 153, 45, 15, 176, 84, 187, 22]

def invSboxTable : List Nat :=
  [
   82, 9, 106, 213, 48, 54, 165, 56, 191, 64, 163, 158, 129, 243, 215, 251,
   124, 227, 57, 130, 155, 47, 255, 135, 52, 142, 67, 68, 196, 222, 233, 203,
   84, 123, 148, 50, 166, 194, 35, 61, 238, 76, 149, 11, 66, 250, 195, 78,
   8, 46, 161, 102, 40, 217, 36, 178, 118, 91, 162, 73, 109, 139, 209, 37,
   114, 248, 246, 100, 134, 104, 152, 22, 212, 164, 92, 204, 93, 101, 182, 146,
   108, 112, 72, 80, 253, 237, 185, 218, 94, 21, 70, 87, 167, 141, 157, 132,
   144, 216, 171, 0, 140, 188, 211, 10, 247, 228, 88, 5, 184, 179, 69, 6,
   208, 44, 30, 143, 202, 63, 15, 2, 193, 175, 189, 3, 1, 19, 138, 107,
   58, 145, 17, 65, 79, 103, 220, 234, 151, 242, 207, 206, 240, 180, 230, 115,
   150, 172, 116, 34, 231, 173, 53, 133, 226, 249, 55, 232, 28, 117, 223, 110,
   71, 241, 26, 113, 29, 41, 197, 137, 111, 183, 98, 14, 170, 24, 190, 27,
   252, 86, 62, 75, 198, 210, 121, 32, 154, 219, 192, 254, 120, 205, 90, 244,
   31, 221, 168, 51, 136, 7, 199, 49, 177, 18, 16, 89, 39, 128, 236, 95,
   96, 81, 127, 169, 25, 181, 74, 13, 45, 229, 122, 159, 147, 201, 156, 239,
   160, 224, 59, 77, 174, 42, 245, 176, 200, 235, 187, 60, 131, 83, 153, 97,
   23, 43, 4, 126, 186, 119, 214, 38, 225, 105, 20, 99, 85, 33, 12, 125]

def sbox (b : Nat) : Nat := sboxTable.getD (b % 256) 0

def invSbox (b : Nat) : Nat := invSboxTable.getD (b % 256) 0

/-! ## AES-128 state

The AES state is 16 bytes arranged in four columns of four bytes;
`blockOfList` fills it column by column from the flat byte order used by
`crypto/aes` (state row r, column c = input byte 4c + r). -/
abbrev Col := Nat × Nat × Nat × Nat

abbrev AESState := Col × Col × Col × Col

def b0 (c : Col) : Nat := c.1

def b1 (c : Col) : Nat := c.2.1

def b2 (c : Col) : Nat := c.2.2.1

def b3 (c : Col) : Nat := c.2.2.2

def ValidCol (c : Col) : Prop := b0 c < 256 ∧ b1 c < 256 ∧ b2 c < 256 ∧ b3 c < 256

def ValidState (s : AESState) : Prop :=
  ValidCol s.1 ∧ ValidCol s.2.1 ∧ ValidCol s.2.2.1 ∧ ValidCol s.2.2.2

def xorCol (a k : Col) : Col :=
  (b0 a ^^^ b0 k, b1 a ^^^ b1 k, b2 a ^^^ b2 k, b3 a ^^^ b3 k)

def mapCol (f : Nat → Nat) (c : Col) : Col := (f (b0 c), f (b1 c), f (b2 c), f (b3 c))

def addRoundKey (k s : AESState) : AESState :=
  (xorCol s.1 k.1, xorCol s.2.1 k.2.1, xorCol s.2.2.1 k.2.2.1, xorCol s.2.2.2 k.2.2.2)

def subBytes (s : AESState) : AESState :=
  (mapCol sbox s.1, mapCol sbox s.2.1, mapCol sbox s.2.2.1, mapCol sbox s.2.2.2)

def invSubBytes (s : AESState) : AESState :=
  (mapCol invSbox s.1, mapCol invSbox s.2.1, mapCol invSbox s.2.2.1, mapCol invSbox s.2.2.2)

def shiftRows (s : AESState) : AESState :=
  ((b0 s.1, b1 s.2.1, b2 s.2.2.1, b3 s.2.2.2),
   (b0 s.2.1, b1 s.2.2.1, b2 s.2.2.2, b3 s.1),
   (b0 s.2.2.1, b1 s.2.2.2, b2 s.1, b3 s.2.1),
   (b0 s.2.2.2, b1 s.1, b2 s.2.1, b3 s.2.2.1))

def invShiftRows (s : AESState) : AESState :=
  ((b0 s.1, b1 s.2.2.2, b2 s.2.2.1, b3 s.2.1),
   (b0 s.2.1, b1 s.1, b2 s.2.2.2, b3 s.2.2.1),
   (b0 s.2.2.1, b1 s.2.1, b2 s.1, b3 s.2.2.2),
   (b0 s.2.2.2, b1 s.2.2.1, b2 s.2.1, b3 s.1))

def mixCol (c : Col) : Col :=
  (gmul2 (b0 c) ^^^ gmul3 (b1 c) ^^^ b2 c ^^^ b3 c,
   b0 c ^^^ gmul2 (b1 c) ^^^ gmul3 (b2 c) ^^^ b3 c,
   b0 c ^^^ b1 c ^^^ gmul2 (b2 c) ^^^ gmul3 (b3 c),
   gmul3 (b0 c) ^^^ b1 c ^^^ b2 c ^^^ gmul2 (b3 c))

def invMixCol (c : Col) : Col :=
  (gmul14 (b0 c) ^^^ gmul11 (b1 c) ^^^ gmul13 (b2 c) ^^^ gmul9 (b3 c),
   gmul9 (b0 c) ^^^ gmul14 (b1 c) ^^^ gmul11 (b2 c) ^^^ gmul13 (b3 c),
   gmul13 (b0 c) ^^^ gmul9 (b1 c) ^^^ gmul14 (b2 c) ^^^ gmul11 (b3 c),
   gmul11 (b0 c) ^^^ gmul13 (b1 c) ^^^ gmul9 (b2 c) ^^^ gmul14 (b3 c))

def mixColumns (s : AESState) : AESState :=
  (mixCol s.1, mixCol s.2.1, mixCol s.2.2.1, mixCol s.2.2.2)

def invMixColumns (s : AESState) : AESState :=
  (invMixCol s.1, invMixCol s.2.1, invMixCol s.2.2.1, invMixCol s.2.2.2)

/-! ## AES-128 key schedule and cipher -/
def byteAt (l : List Nat) (i : Nat) : Nat := l.getD i 0 % 256

def zeroCol : Col := (0, 0, 0, 0)

def zeroState : AESState := (zeroCol, zeroCol, zeroCol, zeroCol)

def rotWord (w : Col) : Col := (b1 w, b2 w, b3 w, b0 w)

def rconTable : List Nat := [1, 2, 4, 8, 16, 32, 64, 128, 27, 54]

def rconCol (j : Nat) : Col := (rconTable.getD (j - 1) 0, 0, 0, 0)

/-- Remaining 40 words of the AES-128 key schedule, starting at word
index `i` with `a b c d` the previous four words. -/
def expandAux : Nat → Nat → Col → Col → Col → Col → List Col
  | _, 0, _, _, _, _ => []
  | i, fuel + 1, a, b, c, d =>
    let temp := if i % 4 = 0 then xorCol (mapCol sbox (rotWord d)) (rconCol (i / 4)) else d
    let nw := xorCol a temp
    nw :: expandAux (i + 1) fuel b c d nw

def word0 (key : List Nat) : Col := (byteAt key 0, byteAt key 1, byteAt key 2, byteAt key 3)

def word1 (key : List Nat) : Col := (byteAt key 4, byteAt key 5, byteAt key 6, byteAt key 7)

def word2 (key : List Nat) : Col := (byteAt key 8, byteAt key 9, byteAt key 10, byteAt key 11)

def word3 (key : List Nat) : Col := (byteAt key 12, byteAt key 13, byteAt key 14, byteAt key 15)

def scheduleWords (key : List Nat) : List Col :=
  [word0 key, word1 key, word2 key, word3 key] ++
    expandAux 4 40 (word0 key) (word1 key) (word2 key) (word3 key)

/-- The eleven AES-128 round keys; round key `r` is words `4r .. 4r+3`. -/
def roundKeys (key : List Nat) : List AESState :=
  let ws := scheduleWords key
  (List.range 11).map fun r =>
    (ws.getD (4 * r) zeroCol, ws.getD (4 * r + 1) zeroCol,
     ws.getD (4 * r + 2) zeroCol, ws.getD (4 * r + 3) zeroCol)

/-- Embeds `aes.NewCipher`: fails exactly when the key length is invalid
(`crypto.go` only ever constructs AES-128 with 16-byte keys). -/
def aesNewCipher (key : List Nat) : Option (List AESState) :=
  if key.length = 16 then some (roundKeys key) else none

def aesRound (s k : AESState) : AESState :=
  addRoundKey k (mixColumns (shiftRows (subBytes s)))

def invAesRound (k s : AESState) : AESState :=
  invSubBytes (invShiftRows (invMixColumns (addRoundKey k s)))

def encCore (k0 : AESState) (mids : List AESState) (kf : AESState) (s : AESState) : AESState :=
  addRoundKey kf (shiftRows (subBytes (mids.foldl aesRound (addRoundKey k0 s))))

def decCore (k0 : AESState) (mids : List AESState) (kf : AESState) (s : AESState) : AESState :=
  addRoundKey k0 (mids.foldr invAesRound (invSubBytes (invShiftRows (addRoundKey kf s))))

def aesEncryptBlock (rks : List AESState) (s : AESState) : AESState :=
  encCore (rks.headD zeroState) ((rks.drop 1).dropLast) (rks.getLastD zeroState) s

def aesDecryptBlock (rks : List AESState) (s : AESState) : AESState :=
  decCore (rks.headD zeroState) ((rks.drop 1).dropLast) (rks.getLastD zeroState) s

def blockOfBytes (l : List Nat) : AESState :=
  ((byteAt l 0, byteAt l 1, byteAt l 2, byteAt l 3),
   (byteAt l 4, byteAt l 5, byteAt l 6, byteAt l 7),
   (byteAt l 8, byteAt l 9, byteAt l 10, byteAt l 11),
   (byteAt l 12, byteAt l 13, byteAt l 14, byteAt l 15))

def bytesOfBlock (s : AESState) : List Nat :=
  [b0 s.1, b1 s.1, b2 s.1, b3 s.1,
   b0 s.2.1, b1 s.2.1, b2 s.2.1, b3 s.2.1,
   b0 s.2.2.1, b1 s.2.2.1, b2 s.2.2.1, b3 s.2.2.1,
   b0 s.2.2.2, b1 s.2.2.2, b2 s.2.2.2, b3 s.2.2.2]

/-- Single-block AES-128 encryption of 16 bytes under a 16-byte key,
as performed by `block.Encrypt` on a cipher from `aes.NewCipher`. -/
def aesEncryptBytes (key block : List Nat) : List Nat :=
  match aesNewCipher key with
  | some rks => bytesOfBlock (aesEncryptBlock rks (blockOfBytes block))
  | none => []

/-! ## SHA-256, HMAC-SHA256 and HKDF

`derivedKey` in `crypto.go` uses `hkdf.New(sha256.New, in[:], nil, info)`
from `golang.org/x/crypto/hkdf`; the hash, HMAC and HKDF expand stream are
embedded here as executable reference implementations. -/
abbrev Hash8 := Nat × Nat × Nat × Nat × Nat × Nat × Nat × Nat

def add32 (a b : Nat) : Nat := (a + b) % 4294967296

def rotr32 (n w : Nat) : Nat := w / 2 ^ n + w % 2 ^ n * 2 ^ (32 - n)

def bigSigma0 (w : Nat) : Nat := rotr32 2 w ^^^ rotr32 13 w ^^^ rotr32 22 w

def bigSigma1 (w : Nat) : Nat := rotr32 6 w ^^^ rotr32 11 w ^^^ rotr32 25 w

def smallSigma0 (w : Nat) : Nat := rotr32 7 w ^^^ rotr32 18 w ^^^ w / 8

def smallSigma1 (w : Nat) : Nat := rotr32 17 w ^^^ rotr32 19 w ^^^ w / 1024

def chF (x y z : Nat) : Nat := x &&& y ^^^ (x ^^^ 4294967295) &&& z

def majF (x y z : Nat) : Nat := x &&& y ^^^ x &&& z ^^^ y &&& z

def sha256K : List Nat :=
  [
   1116352408, 1899447441, 3049323471, 3921009573, 961987163, 1508970993, 2453635748, 2870763221,
   3624381080, 310598401, 607225278, 1426881987, 1925078388, 2162078206, 2614888103, 3248222580,
   3835390401, 4022224774, 264347078, 604807628, 770255983, 1249150122, 1555081692, 1996064986,
   2554220882, 2821834349, 2952996808, 3210313671, 3336571891, 3584528711, 113926993, 338241895,
   666307205, 773529912, 1294757372, 1396182291, 1695183700, 1986661051, 2177026350, 2456956037,
   2730485921, 2820302411, 3259730800, 3345764771, 3516065817, 3600352804, 4094571909, 275423344,
   430227734, 506948616, 659060556, 883997877, 958139571, 1322822218, 1537002063, 1747873779,
   1955562222, 2024104815, 2227730452, 2361852424, 2428436474, 2756734187, 3204031479, 3329325298]

def sha256InitHash : Hash8 :=
  (1779033703, 3144134277, 1013904242, 2773480762,
   1359893119, 2600822924, 528734635, 1541459225)

def be64 (n : Nat) : List Nat :=
  [n / 2 ^ 56 % 256, n / 2 ^ 48 % 256, n / 2 ^ 40 % 256, n / 2 ^ 32 % 256,
   n / 2 ^ 24 % 256, n / 2 ^ 16 % 256, n / 2 ^ 8 % 256, n % 256]

/-- SHA-256 padding: a `0x80` byte, zeros to 56 mod 64, then the bit length
as a big-endian 64-bit integer. -/
def sha256Pad (msg : List Nat) : List Nat :=
  msg ++ [128] ++ List.replicate ((64 - (msg.length + 9) % 64) % 64) 0 ++ be64 (8 * msg.length)

def be32At (c : List Nat) (i : Nat) : Nat :=
  byteAt c i * 16777216 + byteAt c (i + 1) * 65536 + byteAt c (i + 2) * 256 + byteAt c (i + 3)

def wordsOfChunk (c : List Nat) : List Nat :=
  (List.range 16).map fun i => be32At c (4 * i)

/-- Message-schedule extension: appends `fuel` further words. -/
def extendW : List Nat → Nat → List Nat
  | ws, 0 => ws
  | ws, fuel + 1 =>
    extendW (ws ++ [add32 (add32 (smallSigma1 (ws.getD (ws.length - 2) 0)) (ws.getD (ws.length - 7) 0))
      (add32 (smallSigma0 (ws.getD (ws.length - 15) 0)) (ws.getD (ws.length - 16) 0))]) fuel

def roundStep (wt kt : Nat) (st : Hash8) : Hash8 :=
  match st with
  | (a, b, c, d, e, f, g, h) =>
    let t1 := add32 h (add32 (bigSigma1 e) (add32 (chF e f g) (add32 kt wt)))
    let t2 := add32 (bigSigma0 a) (majF a b c)
    (add32 t1 t2, a, b, c, add32 d t1, e, f, g)

def sha256Compress (hv : Hash8) (chunk : List Nat) : Hash8 :=
  let ws := extendW (wordsOfChunk chunk) 48
  let r := (List.range 64).foldl (fun st t => roundStep (ws.getD t 0) (sha256K.getD t 0) st) hv
  match hv, r with
  | (a, b, c, d, e, f, g, h), (a2, b2, c2, d2, e2, f2, g2, h2) =>
    (add32 a a2, add32 b b2, add32 c c2, add32 d d2,
     add32 e e2, add32 f f2, add32 g g2, add32 h h2)

def chunks64 : List Nat → Nat → List (List Nat)
  | _, 0 => []
  | l, fuel + 1 => l.take 64 :: chunks64 (l.drop 64) fuel

def be32 (n : Nat) : List Nat := [n / 2 ^ 24 % 256, n / 2 ^ 16 % 256, n / 2 ^ 8 % 256, n % 256]

def digestBytes (hv : Hash8) : List Nat :=
  match hv with
  | (a, b, c, d, e, f, g, h) =>
    be32 a ++ be32 b ++ be32 c ++ be32 d ++ be32 e ++ be32 f ++ be32 g ++ be32 h

def sha256 (msg : List Nat) : List Nat :=
  let padded := sha256Pad msg
  digestBytes ((chunks64 padded (padded.length / 64)).foldl sha256Compress sha256InitHash)

/-- HMAC-SHA256 with 64-byte block size. -/
def hmac (key msg : List Nat) : List Nat :=
  let k0 := if 64 < key.length then sha256 key else key
  let kp := k0 ++ List.replicate (64 - k0.length) 0
  sha256 ((kp.map fun b => b ^^^ 92) ++ sha256 ((kp.map fun b => b ^^^ 54) ++ msg))

/-- The HKDF expand stream `T(counter), T(counter+1), ...` with
`T(i) = HMAC(prk, T(i-1) ++ info ++ [i])`, `fuel` blocks long. -/
def hkdfBlocks (prk info prev : List Nat) : Nat → Nat → List Nat
  | _, 0 => []
  | counter, fuel + 1 =>
    let t := hmac prk (prev ++ info ++ [counter % 256])
    t ++ hkdfBlocks prk info t (counter + 1) fuel

/-- Embeds a read of `n` bytes from the `hkdf` reader: the only failure is
exhausting the expand counter, i.e. requesting more than `255 * 32` bytes. -/
def hkdfExpand (prk info : List Nat) (n : Nat) : Option (List Nat) :=
  if n ≤ 255 * 32 then some ((hkdfBlocks prk info [] 1 ((n + 31) / 32)).take n) else none

/-- Embeds `derivedKey` (crypto.go lines 118-124): HKDF-SHA256 with `nil`
salt (which Go replaces by a zero-filled hash-size salt), reading 16 bytes.
The `Option` mirrors the `io.ReadFull` error that `derivedKey` turns into a
runtime abort. -/
def derivedKeyOpt (ikm info : List Nat) : Option (List Nat) :=
  hkdfExpand (hmac (List.replicate 32 0) ikm) info 16

def derivedKey (ikm info : List Nat) : List Nat :=
  (derivedKeyOpt ikm info).getD (List.replicate 16 0)

/-! ## crypto.go: the exposure-notification primitives -/
/-- EKRollingPeriod (crypto.go line 46). -/
def EKRollingPeriod : Nat := 144

/-- Conversion of a Go signed integer to `uint32`: the low 32 bits. -/
def toUInt32 (x : Int) : Nat := (x % 4294967296).toNat

/-- Embeds `NewENIntervalNumber` (crypto.go lines 58-60): `t.Unix() / (60*10)`
with Go `int64` division (truncation toward zero), converted to the `uint32`
type `ENIntervalNumber`.  A `time.Time` is embedded by its Unix seconds. -/
def NewENIntervalNumber (tUnix : Int) : Nat := toUInt32 (Int.tdiv tUnix 600)

/-- Embeds `NewRollingStartNumber` (crypto.go lines 64-66). -/
def NewRollingStartNumber (tUnix : Int) : Nat :=
  NewENIntervalNumber tUnix / EKRollingPeriod * EKRollingPeriod

/-- ASCII bytes of the context label `"EN-RPIK"`. -/
def enRPIKLabel : List Nat := [69, 78, 45, 82, 80, 73, 75]

/-- ASCII bytes of the context label `"CT-AEMK"`. -/
def ctAEMKLabel : List Nat := [67, 84, 45, 65, 69, 77, 75]

/-- Embeds `NewRollingProximityIdentifierKey` (crypto.go lines 70-72). -/
def NewRollingProximityIdentifierKey (tek : List Nat) : List Nat :=
  derivedKey tek enRPIKLabel

/-- Embeds `NewAssociatedEncryptedMetadataKey` (crypto.go lines 92-94). -/
def NewAssociatedEncryptedMetadataKey (tek : List Nat) : List Nat :=
  derivedKey tek ctAEMKLabel

/-- `binary.LittleEndian.PutUint32`: the low 32 bits of `n`, little-endian. -/
def le32 (n : Nat) : List Nat :=
  [n % 256, n / 256 % 256, n / 65536 % 256, n / 16777216 % 256]

/-- Go `copy(buf[off:], bs)` for `off + bs.length ≤ buf.length`. -/
def putBytes (buf : List Nat) (off : Nat) (bs : List Nat) : List Nat :=
  buf.take off ++ bs ++ buf.drop (off + bs.length)

/-- ASCII bytes of `"EN-RPI"`. -/
def enRPILabel : List Nat := [69, 78, 45, 82, 80, 73]

/-- The `paddedData` block of `NewRollingProximityIdentifier`: sixteen zero
bytes, `"EN-RPI"` copied at offset 0 and the interval number written at
offset 12 as a little-endian `uint32`. -/
def paddedData (enin : Nat) : List Nat :=
  putBytes (putBytes (List.replicate 16 0) 0 enRPILabel) 12 (le32 enin)

/-- Embeds `NewRollingProximityIdentifier` (crypto.go lines 75-88); the
(unreachable) `aes.NewCipher` error branch surfaces as an empty result. -/
def NewRollingProximityIdentifier (rpik : List Nat) (enin : Nat) : List Nat :=
  aesEncryptBytes rpik (paddedData enin)

/-- Big-endian value of a byte string, as used for the CTR counter block. -/
def beVal (l : List Nat) : Nat := l.foldl (fun acc b => acc * 256 + b % 256) 0

/-- The 16-byte big-endian encoding of `n mod 2^128`. -/
def beBytes16 (n : Nat) : List Nat := (List.range 16).map fun i => n / 256 ^ (15 - i) % 256

/-- The AES-CTR keystream of `cipher.NewCTR(block, iv)`: encryptions of the
big-endian counter block starting at `iv`, truncated to `n` bytes by the
caller. -/
def ctrKeyStream (rks : List AESState) (iv : List Nat) (n : Nat) : List Nat :=
  ((List.range ((n + 15) / 16)).map fun j =>
    bytesOfBlock (aesEncryptBlock rks (blockOfBytes
      (beBytes16 ((beVal iv + j) % 340282366920938463463374607431768211456))))).flatten

/-- Embeds `keyStream` (crypto.go lines 105-116): AES-CTR with the given
16-byte key and 16-byte IV, XORed over `src` into a fresh buffer.  The
`Option` mirrors the `aes.NewCipher` error branch and the `cipher.NewCTR`
IV-length check. -/
def keyStreamOpt (key iv src : List Nat) : Option (List Nat) :=
  match aesNewCipher key with
  | none => none
  | some rks =>
    if iv.length = 16 then
      some (List.zipWith (fun a b => a ^^^ b) src (ctrKeyStream rks iv src.length))
    else none

def keyStream (key iv src : List Nat) : List Nat := (keyStreamOpt key iv src).getD []

/-- Embeds `XORKeyStreamAssociatedMetadata` (crypto.go lines 97-103). -/
def XORKeyStreamAssociatedMetadata (aemk rpi data : List Nat) : List Nat :=
  keyStream aemk rpi data

/-! ## The matcher (demo main, both variants) -/
/-- Embeds Go `bytes.Equal`: content equality of two byte slices. -/
def bytesEqual : List Nat → List Nat → Bool
  | [], [] => true
  | a :: as, b :: bs => if a = b then bytesEqual as bs else false
  | _, _ => false

/-- Cost model for `bytes.Equal`: the number of byte comparisons performed
by the reference short-circuiting comparison loop (`runtime memequal` exits
at the first differing position; unequal lengths are rejected before any
byte is compared). -/
def prefixSteps : List Nat → List Nat → Nat
  | a :: as, b :: bs => if a = b then 1 + prefixSteps as bs else 1
  | _, _ => 0

def bytesEqualSteps (a b : List Nat) : Nat :=
  if a.length = b.length then prefixSteps a b else 0

/-- Go `uint32` subtraction `a - b` for `a < 2^32`. -/
def sub32 (a b : Nat) : Nat := (a + 4294967296 - b % 4294967296) % 4294967296

/-- ASCII bytes of `"bluetooth metadata..."`. -/
def metadataMsg : List Nat :=
  [98, 108, 117, 101, 116, 111, 111, 116, 104, 32, 109, 101, 116, 97, 100, 97, 116, 97, 46, 46, 46]

/-- Embeds the matcher loop of the demo `main`, variant 2 (part_000 lines
166-191): scan offsets `0 .. EKRollingPeriod - 1`, derive the candidate
identifier at `rollingStartNumber + i` (`uint32` addition), compare with
`bytes.Equal`, and on the first match decrypt the observed metadata; `none`
models the loop ending with `match == false`. -/
def tryMatch (tek : List Nat) (rollingStartNumber : Nat) (receivedRPI receivedAEM : List Nat) :
    Option (Nat × List Nat) :=
  let derivedRPIK := NewRollingProximityIdentifierKey tek
  let derivedAEMK := NewAssociatedEncryptedMetadataKey tek
  (List.range EKRollingPeriod).findSome? fun i =>
    let enin := (rollingStartNumber + i) % 4294967296
    let derivedRPI := NewRollingProximityIdentifier derivedRPIK enin
    if bytesEqual derivedRPI receivedRPI then
      some (i, XORKeyStreamAssociatedMetadata derivedAEMK derivedRPI receivedAEM)
    else none

/-- Modelled from the spec: variant 1 of the demo calls `crypto.KeyStream`,
an exported entry point of this repository that is not part of
src/crypto.go; per the spec (section 9) the variants differ only in helper
naming, so it is the key-stream application `keyStream`. -/
def KeyStream (key iv src : List Nat) : List Nat := keyStream key iv src

/-- Modelled from the spec: variant 1 of the demo calls
`crypto.NewAssociatedEncryptedMetadata`, an entry point of this repository
that is not part of src/crypto.go; per the spec (section 9) it is the
renamed encryption entry point `XORKeyStreamAssociatedMetadata`. -/
def NewAssociatedEncryptedMetadata (aemk rpi data : List Nat) : List Nat :=
  XORKeyStreamAssociatedMetadata aemk rpi data

/-- Embeds the matcher loop of the demo `main`, variant 1 (part_000 lines
64-89), which decrypts through `crypto.KeyStream` on the identifier slice. -/
def tryMatchV1 (tek : List Nat) (rollingStartNumber : Nat) (receivedRPI receivedAEM : List Nat) :
    Option (Nat × List Nat) :=
  let derivedRPIK := NewRollingProximityIdentifierKey tek
  let derivedAEMK := NewAssociatedEncryptedMetadataKey tek
  (List.range EKRollingPeriod).findSome? fun i =>
    let enin := (rollingStartNumber + i) % 4294967296
    let derivedRPI := NewRollingProximityIdentifier derivedRPIK enin
    if bytesEqual derivedRPI receivedRPI then
      some (i, KeyStream derivedAEMK derivedRPI receivedAEM)
    else none

/-- The observable run of demo variant 2 (part_000 lines 101-192) from its
random inputs: `tek` is the generated TemporaryExposureKey, `tek2` the
fresh key of the third diagnosis key, `tUnix` the Unix time of
`time.Now()`; the result lists the three matcher outcomes.  The Go locals
`rollingStartNumber`, `rpik`, `aemk`, `enin`, `rpi` and `aem` are inlined. -/
def variant2Run (tUnix : Int) (tek tek2 : List Nat) : List (Option (Nat × List Nat)) :=
  [tryMatch tek (NewRollingStartNumber tUnix)
     (NewRollingProximityIdentifier (NewRollingProximityIdentifierKey tek)
       (NewENIntervalNumber (tUnix + 2520)))
     (XORKeyStreamAssociatedMetadata (NewAssociatedEncryptedMetadataKey tek)
       (NewRollingProximityIdentifier (NewRollingProximityIdentifierKey tek)
         (NewENIntervalNumber (tUnix + 2520))) metadataMsg),
   tryMatch tek (sub32 (NewRollingStartNumber tUnix) (EKRollingPeriod * 10 * 3))
     (NewRollingProximityIdentifier (NewRollingProximityIdentifierKey tek)
       (NewENIntervalNumber (tUnix + 2520)))
     (XORKeyStreamAssociatedMetadata (NewAssociatedEncryptedMetadataKey tek)
       (NewRollingProximityIdentifier (NewRollingProximityIdentifierKey tek)
         (NewENIntervalNumber (tUnix + 2520))) metadataMsg),
   tryMatch tek2 (NewRollingStartNumber tUnix)
     (NewRollingProximityIdentifier (NewRollingProximityIdentifierKey tek)
       (NewENIntervalNumber (tUnix + 2520)))
     (XORKeyStreamAssociatedMetadata (NewAssociatedEncryptedMetadataKey tek)
       (NewRollingProximityIdentifier (NewRollingProximityIdentifierKey tek)
         (NewENIntervalNumber (tUnix + 2520))) metadataMsg)]

/-- The observable run of demo variant 1 (part_000 lines 11-90): identical
except that the rolling start number is the unaligned
`NewENIntervalNumber(time.Now())` and the encryption entry point and the
decryption in the loop are the renamed helpers. -/
def variant1Run (tUnix : Int) (tek tek2 : List Nat) : List (Option (Nat × List Nat)) :=
  [tryMatchV1 tek (NewENIntervalNumber tUnix)
     (NewRollingProximityIdentifier (NewRollingProximityIdentifierKey tek)
       (NewENIntervalNumber (tUnix + 2520)))
     (NewAssociatedEncryptedMetadata (NewAssociatedEncryptedMetadataKey tek)
       (NewRollingProximityIdentifier (NewRollingProximityIdentifierKey tek)
         (NewENIntervalNumber (tUnix + 2520))) metadataMsg),
   tryMatchV1 tek (sub32 (NewENIntervalNumber tUnix) (EKRollingPeriod * 10 * 3))
     (NewRollingProximityIdentifier (NewRollingProximityIdentifierKey tek)
       (NewENIntervalNumber (tUnix + 2520)))
     (NewAssociatedEncryptedMetadata (NewAssociatedEncryptedMetadataKey tek)
       (NewRollingProximityIdentifier (NewRollingProximityIdentifierKey tek)
         (NewENIntervalNumber (tUnix + 2520))) metadataMsg),
   tryMatchV1 tek2 (NewENIntervalNumber tUnix)
     (NewRollingProximityIdentifier (NewRollingProximityIdentifierKey tek)
       (NewENIntervalNumber (tUnix + 2520)))
     (NewAssociatedEncryptedMetadata (NewAssociatedEncryptedMetadataKey tek)
       (NewRollingProximityIdentifier (NewRollingProximityIdentifierKey tek)
         (NewENIntervalNumber (tUnix + 2520))) metadataMsg)]

/-! ## A buffer-heap model of keyStream for its frame property

Go slices are mutable buffers; to state that `keyStream` leaves its `src`
slice untouched, the body of `keyStream` is re-embedded at the buffer
level: buffers live in a small heap addressed by identifiers, `make`
allocates a fresh buffer, and `stream.XORKeyStream(dst, src)` overwrites
exactly the buffer `dst`. -/
abbrev Heap := List (Nat × List Nat)

def heapLookup (h : Heap) (id : Nat) : Option (List Nat) :=
  (h.find? fun p => p.1 == id).map Prod.snd

def heapFresh (h : Heap) : Nat := (h.map Prod.fst).foldr max 0 + 1

/-- Go `dst := make([]byte, n)`: a fresh zero-filled buffer. -/
def heapAlloc (h : Heap) (n : Nat) : Heap × Nat :=
  ((heapFresh h, List.replicate n 0) :: h, heapFresh h)

/-- Go `stream.XORKeyStream(dst, src)`: buffer `dst` is overwritten with
`src XOR keystream`; every other buffer is untouched. -/
def heapXORKeyStream (h : Heap) (rks : List AESState) (iv : List Nat) (dst src : Nat) : Heap :=
  let s := (heapLookup h src).getD []
  h.map fun p =>
    if p.1 = dst then (p.1, List.zipWith (fun a b => a ^^^ b) s (ctrKeyStream rks iv s.length))
    else p

/-- The body of `keyStream` (crypto.go lines 105-116) at the buffer level:
construct the cipher, allocate `dst`, XOR the keystream over `src` into
`dst`, and return `dst`. -/
def keyStreamHeap (key iv : List Nat) (h : Heap) (src : Nat) : Heap × Nat :=
  match aesNewCipher key with
  | none => (h, 0)
  | some rks =>
    let alloc := heapAlloc h ((heapLookup h src).getD []).length
    (heapXORKeyStream alloc.1 rks iv alloc.2 src, alloc.2)

/-! ## Theorems -/

/-!
Verification of the exposure-notification cryptography library
(`crypto.go`) and its demonstration matcher (`main.go`, two variants).

The Go source is shallowly embedded: bytes are `Nat` values kept below 256,
byte sequences are `List Nat`, machine integers are `Nat`/`Int` with explicit
reduction modulo powers of two, and every fallible operation returns an
`Option`.  The AES-128 block cipher, SHA-256, HMAC and HKDF used by the source
through the Go standard library are embedded as executable reference
implementations, so that every function of the repository is a total,
computable Lean definition.
-/
/-! ## Byte-level XOR lemmas -/
theorem xorCancel (a k : Nat) : a ^^^ k ^^^ k = a := by
  rw [Nat.xor_assoc, Nat.xor_self, Nat.xor_zero]

theorem xorLeftComm (a b c : Nat) : a ^^^ (b ^^^ c) = b ^^^ (a ^^^ c) := by
  rw [← Nat.xor_assoc, Nat.xor_comm a b, Nat.xor_assoc]

theorem xorMod256 (x y : Nat) : (x ^^^ y) % 256 = x % 256 ^^^ y % 256 := by
  apply Nat.eq_of_testBit_eq
  intro i
  have h256 : (256 : Nat) = 2 ^ 8 := by norm_num
  rw [h256]
  simp only [Nat.testBit_mod_two_pow, Nat.testBit_xor, Bool.and_xor_distrib_left]

theorem twoMulXor (x y : Nat) : 2 * (x ^^^ y) = 2 * x ^^^ 2 * y := by
  have h : ∀ z : Nat, 2 * z = z <<< 1 := by
    intro z; rw [Nat.shiftLeft_eq]; ring
  rw [h, h, h]
  apply Nat.eq_of_testBit_eq
  intro i
  simp [Nat.testBit_shiftLeft, Nat.testBit_xor, Bool.and_xor_distrib_left]

theorem testBit7 (x : Nat) (hx : x < 256) : x.testBit 7 = decide (128 ≤ x) := by
  rw [Nat.testBit_to_div_mod, decide_eq_decide]
  omega

theorem xorLt256 {a b : Nat} (ha : a < 256) (hb : b < 256) : a ^^^ b < 256 := by
  have h256 : (256 : Nat) = 2 ^ 8 := by norm_num
  rw [h256] at ha hb ⊢
  exact Nat.xor_lt_two_pow ha hb

theorem xtime_lt (b : Nat) : xtime b < 256 := by
  unfold xtime
  exact Nat.mod_lt _ (by norm_num)

theorem condXor (a b : Nat) (ha : a < 256) (hb : b < 256) :
    (if 128 ≤ a ^^^ b then 27 else 0) =
      (if 128 ≤ a then 27 else 0) ^^^ ((if 128 ≤ b then 27 else 0) : Nat) := by
  have hxy : a ^^^ b < 256 := xorLt256 ha hb
  have h3 := testBit7 (a ^^^ b) hxy
  rw [Nat.testBit_xor, testBit7 a ha, testBit7 b hb] at h3
  by_cases hA : 128 ≤ a <;> by_cases hB : 128 ≤ b <;>
    simp [hA, hB] at h3 ⊢ <;> simp [h3]

theorem xtime_lin {a b : Nat} (ha : a < 256) (hb : b < 256) :
    xtime (a ^^^ b) = xtime a ^^^ xtime b := by
  unfold xtime
  rw [← xorMod256, condXor a b ha hb, twoMulXor]
  congr 1
  simp [Nat.xor_assoc, Nat.xor_comm, xorLeftComm]

theorem gmul2_lt (b : Nat) : gmul2 b < 256 := xtime_lt b

theorem gmul3_lt {b : Nat} (hb : b < 256) : gmul3 b < 256 := xorLt256 (xtime_lt b) hb

theorem gmul2_lin {a b : Nat} (ha : a < 256) (hb : b < 256) :
    gmul2 (a ^^^ b) = gmul2 a ^^^ gmul2 b := xtime_lin ha hb

theorem gmul3_lin {a b : Nat} (ha : a < 256) (hb : b < 256) :
    gmul3 (a ^^^ b) = gmul3 a ^^^ gmul3 b := by
  unfold gmul3
  rw [xtime_lin ha hb]
  simp [Nat.xor_assoc, Nat.xor_comm, xorLeftComm]

theorem gmul9_lin {a b : Nat} (ha : a < 256) (hb : b < 256) :
    gmul9 (a ^^^ b) = gmul9 a ^^^ gmul9 b := by
  unfold gmul9
  rw [xtime_lin ha hb, xtime_lin (xtime_lt a) (xtime_lt b),
    xtime_lin (xtime_lt _) (xtime_lt _)]
  simp [Nat.xor_assoc, Nat.xor_comm, xorLeftComm]

theorem gmul11_lin {a b : Nat} (ha : a < 256) (hb : b < 256) :
    gmul11 (a ^^^ b) = gmul11 a ^^^ gmul11 b := by
  unfold gmul11
  rw [xtime_lin ha hb, xtime_lin (xtime_lt a) (xtime_lt b),
    xtime_lin (xtime_lt _) (xtime_lt _)]
  simp [Nat.xor_assoc, Nat.xor_comm, xorLeftComm]

theorem gmul13_lin {a b : Nat} (ha : a < 256) (hb : b < 256) :
    gmul13 (a ^^^ b) = gmul13 a ^^^ gmul13 b := by
  unfold gmul13
  rw [xtime_lin ha hb, xtime_lin (xtime_lt a) (xtime_lt b),
    xtime_lin (xtime_lt _) (xtime_lt _)]
  simp [Nat.xor_assoc, Nat.xor_comm, xorLeftComm]

theorem gmul14_lin {a b : Nat} (ha : a < 256) (hb : b < 256) :
    gmul14 (a ^^^ b) = gmul14 a ^^^ gmul14 b := by
  unfold gmul14
  rw [xtime_lin ha hb, xtime_lin (xtime_lt a) (xtime_lt b),
    xtime_lin (xtime_lt _) (xtime_lt _)]
  simp [Nat.xor_assoc, Nat.xor_comm, xorLeftComm]

set_option maxRecDepth 2000 in
theorem invSbox_sbox {b : Nat} (hb : b < 256) : invSbox (sbox b) = b := by
  have h : ∀ x : Fin 256, invSbox (sbox x.val) = x.val := by decide
  exact h ⟨b, hb⟩

set_option maxRecDepth 2000 in
theorem sbox_lt (b : Nat) : sbox b < 256 := by
  have h : ∀ x : Fin 256, sbox x.val < 256 := by decide
  have hb : b % 256 < 256 := Nat.mod_lt _ (by norm_num)
  have : sbox (b % 256) < 256 := h ⟨b % 256, hb⟩
  simpa [sbox, Nat.mod_mod_of_dvd] using this

/-! ## Inverse lemmas for the state operations -/
theorem addRoundKey_cancel (k s : AESState) : addRoundKey k (addRoundKey k s) = s := by
  obtain ⟨⟨x0, x1, x2, x3⟩, ⟨y0, y1, y2, y3⟩, ⟨z0, z1, z2, z3⟩, ⟨w0, w1, w2, w3⟩⟩ := s
  simp [addRoundKey, xorCol, b0, b1, b2, b3, xorCancel]

theorem invShiftRows_shiftRows (s : AESState) : invShiftRows (shiftRows s) = s := rfl

theorem invSubBytes_subBytes (s : AESState) (hs : ValidState s) :
    invSubBytes (subBytes s) = s := by
  obtain ⟨⟨x0, x1, x2, x3⟩, ⟨y0, y1, y2, y3⟩, ⟨z0, z1, z2, z3⟩, ⟨w0, w1, w2, w3⟩⟩ := s
  obtain ⟨⟨h1, h2, h3, h4⟩, ⟨h5, h6, h7, h8⟩, ⟨h9, h10, h11, h12⟩, ⟨h13, h14, h15, h16⟩⟩ := hs
  simp only [ValidCol, b0, b1, b2, b3] at h1 h2 h3 h4 h5 h6 h7 h8 h9 h10 h11 h12 h13 h14 h15 h16
  simp [invSubBytes, subBytes, mapCol, b0, b1, b2, b3, invSbox_sbox, *]

theorem subBytes_valid (s : AESState) : ValidState (subBytes s) := by
  obtain ⟨⟨x0, x1, x2, x3⟩, ⟨y0, y1, y2, y3⟩, ⟨z0, z1, z2, z3⟩, ⟨w0, w1, w2, w3⟩⟩ := s
  simp [subBytes, mapCol, ValidState, ValidCol, b0, b1, b2, b3, sbox_lt]

theorem shiftRows_valid (s : AESState) (hs : ValidState s) : ValidState (shiftRows s) := by
  obtain ⟨⟨x0, x1, x2, x3⟩, ⟨y0, y1, y2, y3⟩, ⟨z0, z1, z2, z3⟩, ⟨w0, w1, w2, w3⟩⟩ := s
  obtain ⟨⟨h1, h2, h3, h4⟩, ⟨h5, h6, h7, h8⟩, ⟨h9, h10, h11, h12⟩, ⟨h13, h14, h15, h16⟩⟩ := hs
  exact ⟨⟨h1, h6, h11, h16⟩, ⟨h5, h10, h15, h4⟩, ⟨h9, h14, h3, h8⟩, ⟨h13, h2, h7, h12⟩⟩

theorem gmul9_lt {b : Nat} (hb : b < 256) : gmul9 b < 256 :=
  xorLt256 (xtime_lt _) hb

theorem gmul11_lt {b : Nat} (hb : b < 256) : gmul11 b < 256 :=
  xorLt256 (xorLt256 (xtime_lt _) (xtime_lt _)) hb

theorem gmul13_lt {b : Nat} (hb : b < 256) : gmul13 b < 256 :=
  xorLt256 (xorLt256 (xtime_lt _) (xtime_lt _)) hb

theorem gmul14_lt (b : Nat) : gmul14 b < 256 :=
  xorLt256 (xorLt256 (xtime_lt _) (xtime_lt _)) (xtime_lt _)

theorem mixCol_valid {c : Col} (hc : ValidCol c) : ValidCol (mixCol c) := by
  obtain ⟨x0, x1, x2, x3⟩ := c
  obtain ⟨h0, h1, h2, h3⟩ := hc
  simp only [ValidCol, b0, b1, b2, b3] at h0 h1 h2 h3 ⊢
  refine ⟨?_, ?_, ?_, ?_⟩ <;>
    simp [mixCol, b0, b1, b2, b3] <;>
    apply_rules [xorLt256, gmul2_lt, gmul3_lt, xtime_lt]

theorem xorCol_valid {x y : Col} (hx : ValidCol x) (hy : ValidCol y) :
    ValidCol (xorCol x y) := by
  obtain ⟨x0, x1, x2, x3⟩ := x
  obtain ⟨y0, y1, y2, y3⟩ := y
  obtain ⟨h0, h1, h2, h3⟩ := hx
  obtain ⟨g0, g1, g2, g3⟩ := hy
  exact ⟨xorLt256 h0 g0, xorLt256 h1 g1, xorLt256 h2 g2, xorLt256 h3 g3⟩

theorem mixCol_lin {x y : Col} (hx : ValidCol x) (hy : ValidCol y) :
    mixCol (xorCol x y) = xorCol (mixCol x) (mixCol y) := by
  obtain ⟨x0, x1, x2, x3⟩ := x
  obtain ⟨y0, y1, y2, y3⟩ := y
  obtain ⟨h0, h1, h2, h3⟩ := hx
  obtain ⟨g0, g1, g2, g3⟩ := hy
  simp only [ValidCol, b0, b1, b2, b3] at h0 h1 h2 h3 g0 g1 g2 g3
  simp only [mixCol, xorCol, b0, b1, b2, b3, Prod.mk.injEq]
  rw [gmul2_lin h0 g0, gmul3_lin h1 g1, gmul2_lin h1 g1, gmul3_lin h2 g2,
    gmul2_lin h2 g2, gmul3_lin h3 g3, gmul3_lin h0 g0, gmul2_lin h3 g3]
  refine ⟨?_, ?_, ?_, ?_⟩ <;> simp [Nat.xor_assoc, Nat.xor_comm, xorLeftComm]

theorem invMixCol_lin {x y : Col} (hx : ValidCol x) (hy : ValidCol y) :
    invMixCol (xorCol x y) = xorCol (invMixCol x) (invMixCol y) := by
  obtain ⟨x0, x1, x2, x3⟩ := x
  obtain ⟨y0, y1, y2, y3⟩ := y
  obtain ⟨h0, h1, h2, h3⟩ := hx
  obtain ⟨g0, g1, g2, g3⟩ := hy
  simp only [ValidCol, b0, b1, b2, b3] at h0 h1 h2 h3 g0 g1 g2 g3
  simp only [invMixCol, xorCol, b0, b1, b2, b3, Prod.mk.injEq]
  rw [gmul14_lin h0 g0, gmul11_lin h1 g1, gmul13_lin h2 g2, gmul9_lin h3 g3,
    gmul9_lin h0 g0, gmul14_lin h1 g1, gmul11_lin h2 g2, gmul13_lin h3 g3,
    gmul13_lin h0 g0, gmul9_lin h1 g1, gmul14_lin h2 g2, gmul11_lin h3 g3,
    gmul11_lin h0 g0, gmul13_lin h1 g1, gmul9_lin h2 g2, gmul14_lin h3 g3]
  refine ⟨?_, ?_, ?_, ?_⟩ <;> simp [Nat.xor_assoc, Nat.xor_comm, xorLeftComm]

set_option maxRecDepth 2000 in
theorem mixBasis : ∀ a : Fin 256,
    invMixCol (mixCol ((a : Nat), 0, 0, 0)) = ((a : Nat), 0, 0, 0) ∧
    invMixCol (mixCol (0, (a : Nat), 0, 0)) = (0, (a : Nat), 0, 0) ∧
    invMixCol (mixCol (0, 0, (a : Nat), 0)) = (0, 0, (a : Nat), 0) ∧
    invMixCol (mixCol (0, 0, 0, (a : Nat))) = (0, 0, 0, (a : Nat)) := by decide

theorem invMixCol_mixCol {c : Col} (hc : ValidCol c) : invMixCol (mixCol c) = c := by
  obtain ⟨x0, x1, x2, x3⟩ := c
  obtain ⟨h0, h1, h2, h3⟩ := hc
  simp only [ValidCol, b0, b1, b2, b3] at h0 h1 h2 h3
  have hz : ∀ y : Col, y = ((0 : Nat), (0 : Nat), (0 : Nat), (0 : Nat)) → ValidCol y := by
    rintro y rfl
    exact ⟨by norm_num [b0], by norm_num [b1], by norm_num [b2], by norm_num [b3]⟩
  have hb0 : ValidCol ((x0 : Nat), 0, 0, 0) := ⟨h0, by norm_num [b1], by norm_num [b2], by norm_num [b3]⟩
  have hb1 : ValidCol ((0 : Nat), x1, 0, 0) := ⟨by norm_num [b0], h1, by norm_num [b2], by norm_num [b3]⟩
  have hb2 : ValidCol ((0 : Nat), 0, x2, 0) := ⟨by norm_num [b0], by norm_num [b1], h2, by norm_num [b3]⟩
  have hb3 : ValidCol ((0 : Nat), 0, 0, x3) := ⟨by norm_num [b0], by norm_num [b1], by norm_num [b2], h3⟩
  have e : (x0, x1, x2, x3) =
      xorCol ((x0 : Nat), 0, 0, 0) (xorCol ((0 : Nat), x1, 0, 0)
        (xorCol ((0 : Nat), 0, x2, 0) ((0 : Nat), 0, 0, x3))) := by
    simp [xorCol, b0, b1, b2, b3]
  rw [e, mixCol_lin hb0 (xorCol_valid hb1 (xorCol_valid hb2 hb3)),
    mixCol_lin hb1 (xorCol_valid hb2 hb3), mixCol_lin hb2 hb3,
    invMixCol_lin (mixCol_valid hb0)
      (xorCol_valid (mixCol_valid hb1) (xorCol_valid (mixCol_valid hb2) (mixCol_valid hb3))),
    invMixCol_lin (mixCol_valid hb1)
      (xorCol_valid (mixCol_valid hb2) (mixCol_valid hb3)),
    invMixCol_lin (mixCol_valid hb2) (mixCol_valid hb3)]
  rw [(mixBasis ⟨x0, h0⟩).1, (mixBasis ⟨x1, h1⟩).2.1, (mixBasis ⟨x2, h2⟩).2.2.1,
    (mixBasis ⟨x3, h3⟩).2.2.2]

theorem invMixColumns_mixColumns (s : AESState) (hs : ValidState s) :
    invMixColumns (mixColumns s) = s := by
  obtain ⟨c1, c2, c3, c4⟩ := s
  obtain ⟨h1, h2, h3, h4⟩ := hs
  simp only [invMixColumns, mixColumns]
  rw [invMixCol_mixCol h1, invMixCol_mixCol h2, invMixCol_mixCol h3, invMixCol_mixCol h4]

theorem mixColumns_valid {s : AESState} (hs : ValidState s) : ValidState (mixColumns s) := by
  obtain ⟨c1, c2, c3, c4⟩ := s
  obtain ⟨h1, h2, h3, h4⟩ := hs
  exact ⟨mixCol_valid h1, mixCol_valid h2, mixCol_valid h3, mixCol_valid h4⟩

theorem addRoundKey_valid {k s : AESState} (hk : ValidState k) (hs : ValidState s) :
    ValidState (addRoundKey k s) := by
  obtain ⟨c1, c2, c3, c4⟩ := s
  obtain ⟨k1, k2, k3, k4⟩ := k
  obtain ⟨h1, h2, h3, h4⟩ := hs
  obtain ⟨g1, g2, g3, g4⟩ := hk
  exact ⟨xorCol_valid h1 g1, xorCol_valid h2 g2, xorCol_valid h3 g3, xorCol_valid h4 g4⟩

/-! ## Validity of the key schedule and cipher states -/
theorem getD_pred {α : Type} (P : α → Prop) (l : List α) (i : Nat) (d : α)
    (hl : ∀ x ∈ l, P x) (hd : P d) : P (l.getD i d) := by
  induction l generalizing i with
  | nil => simpa [List.getD] using hd
  | cons a t ih =>
    cases i with
    | zero => exact hl a (by simp)
    | succ j =>
      exact ih j (fun x hx => hl x (by simp [hx]))

theorem byteAt_lt (l : List Nat) (i : Nat) : byteAt l i < 256 :=
  Nat.mod_lt _ (by norm_num)

theorem mapCol_sbox_valid (c : Col) : ValidCol (mapCol sbox c) :=
  ⟨sbox_lt _, sbox_lt _, sbox_lt _, sbox_lt _⟩

theorem rconCol_valid (j : Nat) : ValidCol (rconCol j) := by
  refine ⟨?_, by norm_num [b1, rconCol], by norm_num [b2, rconCol], by norm_num [b3, rconCol]⟩
  show rconTable.getD (j - 1) 0 < 256
  exact getD_pred (· < 256) _ _ _ (by decide) (by norm_num)

theorem expandAux_valid :
    ∀ (fuel i : Nat) (a b c d : Col), ValidCol a → ValidCol b → ValidCol c → ValidCol d →
      ∀ w ∈ expandAux i fuel a b c d, ValidCol w := by
  intro fuel
  induction fuel with
  | zero => intro i a b c d _ _ _ _ w hw; simp [expandAux] at hw
  | succ f ih =>
    intro i a b c d ha hb hc hd w hw
    simp only [expandAux, List.mem_cons] at hw
    have htemp : ValidCol (if i % 4 = 0 then
        xorCol (mapCol sbox (rotWord d)) (rconCol (i / 4)) else d) := by
      split
      · exact xorCol_valid (mapCol_sbox_valid _) (rconCol_valid _)
      · exact hd
    have hnw : ValidCol (xorCol a (if i % 4 = 0 then
        xorCol (mapCol sbox (rotWord d)) (rconCol (i / 4)) else d)) :=
      xorCol_valid ha htemp
    rcases hw with hw | hw
    · exact hw ▸ hnw
    · exact ih (i + 1) b c d _ hb hc hd hnw w hw

theorem word_valid (key : List Nat) :
    ValidCol (word0 key) ∧ ValidCol (word1 key) ∧ ValidCol (word2 key) ∧ ValidCol (word3 key) := by
  refine ⟨?_, ?_, ?_, ?_⟩ <;>
    exact ⟨byteAt_lt _ _, byteAt_lt _ _, byteAt_lt _ _, byteAt_lt _ _⟩

theorem scheduleWords_valid (key : List Nat) : ∀ w ∈ scheduleWords key, ValidCol w := by
  intro w hw
  obtain ⟨h0, h1, h2, h3⟩ := word_valid key
  rw [scheduleWords] at hw
  rcases List.mem_append.mp hw with h | h
  · simp only [List.mem_cons, List.not_mem_nil, or_false] at h
    rcases h with rfl | rfl | rfl | rfl
    · exact h0
    · exact h1
    · exact h2
    · exact h3
  · exact expandAux_valid 40 4 _ _ _ _ h0 h1 h2 h3 w h

theorem zeroCol_valid : ValidCol zeroCol := by
  refine ⟨by norm_num [b0, zeroCol], by norm_num [b1, zeroCol],
    by norm_num [b2, zeroCol], by norm_num [b3, zeroCol]⟩

theorem zeroState_valid : ValidState zeroState :=
  ⟨zeroCol_valid, zeroCol_valid, zeroCol_valid, zeroCol_valid⟩

theorem roundKeys_valid (key : List Nat) : ∀ rk ∈ roundKeys key, ValidState rk := by
  intro rk hrk
  simp only [roundKeys, List.mem_map] at hrk
  obtain ⟨r, _, hr⟩ := hrk
  subst hr
  refine ⟨?_, ?_, ?_, ?_⟩ <;>
    exact getD_pred ValidCol _ _ _ (scheduleWords_valid key) zeroCol_valid

theorem blockOfBytes_valid (l : List Nat) : ValidState (blockOfBytes l) := by
  refine ⟨?_, ?_, ?_, ?_⟩ <;>
    exact ⟨byteAt_lt _ _, byteAt_lt _ _, byteAt_lt _ _, byteAt_lt _ _⟩

/-! ## Decryption inverts encryption; injectivity of the block cipher -/
theorem aesRound_valid {s k : AESState} (hk : ValidState k) (hs : ValidState s) :
    ValidState (aesRound s k) :=
  addRoundKey_valid hk (mixColumns_valid (shiftRows_valid _ (subBytes_valid _)))

theorem foldl_aesRound_valid (mids : List AESState) (s : AESState)
    (hs : ValidState s) (hm : ∀ k ∈ mids, ValidState k) :
    ValidState (mids.foldl aesRound s) := by
  induction mids generalizing s with
  | nil => exact hs
  | cons k t ih =>
    exact ih (aesRound s k) (aesRound_valid (hm k (by simp)) hs)
      (fun x hx => hm x (by simp [hx]))

theorem invAesRound_aesRound (k : AESState) {s : AESState} (hs : ValidState s) :
    invAesRound k (aesRound s k) = s := by
  unfold invAesRound aesRound
  rw [addRoundKey_cancel,
    invMixColumns_mixColumns _ (shiftRows_valid _ (subBytes_valid _)),
    invShiftRows_shiftRows]
  exact invSubBytes_subBytes s hs

theorem mid_cancel (mids : List AESState) (s : AESState)
    (hs : ValidState s) (hm : ∀ k ∈ mids, ValidState k) :
    mids.foldr invAesRound (mids.foldl aesRound s) = s := by
  induction mids using List.reverseRecOn with
  | nil => rfl
  | append_singleton t k ih =>
    rw [List.foldl_append, List.foldr_append]
    simp only [List.foldl_cons, List.foldl_nil, List.foldr_cons, List.foldr_nil]
    rw [invAesRound_aesRound k (foldl_aesRound_valid t s hs
      (fun x hx => hm x (by simp [hx])))]
    exact ih (fun x hx => hm x (by simp [hx]))

theorem decCore_encCore (k0 : AESState) (mids : List AESState) (kf : AESState)
    (s : AESState) (hs : ValidState s) (hk0 : ValidState k0)
    (hm : ∀ k ∈ mids, ValidState k) :
    decCore k0 mids kf (encCore k0 mids kf s) = s := by
  unfold decCore encCore
  rw [addRoundKey_cancel, invShiftRows_shiftRows,
    invSubBytes_subBytes _ (foldl_aesRound_valid mids _ (addRoundKey_valid hk0 hs) hm),
    mid_cancel mids _ (addRoundKey_valid hk0 hs) hm, addRoundKey_cancel]

theorem aesDecryptBlock_aesEncryptBlock (rks : List AESState) (s : AESState)
    (hrks : ∀ k ∈ rks, ValidState k) (hs : ValidState s) :
    aesDecryptBlock rks (aesEncryptBlock rks s) = s := by
  unfold aesDecryptBlock aesEncryptBlock
  have hk0 : ValidState (rks.headD zeroState) := by
    cases rks with
    | nil => exact zeroState_valid
    | cons a t => exact hrks a (by simp)
  have hm : ∀ k ∈ (rks.drop 1).dropLast, ValidState k := by
    intro k hk
    exact hrks k (List.Sublist.mem (List.Sublist.mem hk (List.dropLast_sublist _))
      (List.drop_sublist 1 rks))
  exact decCore_encCore _ _ _ s hs hk0 hm

theorem aesEncryptBlock_inj (rks : List AESState) (s1 s2 : AESState)
    (hrks : ∀ k ∈ rks, ValidState k) (h1 : ValidState s1) (h2 : ValidState s2)
    (h : aesEncryptBlock rks s1 = aesEncryptBlock rks s2) : s1 = s2 := by
  have e1 := aesDecryptBlock_aesEncryptBlock rks s1 hrks h1
  have e2 := aesDecryptBlock_aesEncryptBlock rks s2 hrks h2
  rw [← e1, ← e2, h]

theorem digestBytes_length (hv : Hash8) : (digestBytes hv).length = 32 := by
  obtain ⟨a, b, c, d, e, f, g, h⟩ := hv
  rfl

theorem sha256_length (msg : List Nat) : (sha256 msg).length = 32 :=
  digestBytes_length _

theorem hmac_length (key msg : List Nat) : (hmac key msg).length = 32 :=
  sha256_length _

theorem hkdfBlocks_length (prk info : List Nat) :
    ∀ (fuel : Nat) (prev : List Nat) (counter : Nat),
      (hkdfBlocks prk info prev counter fuel).length = 32 * fuel := by
  intro fuel
  induction fuel with
  | zero => intro prev counter; rfl
  | succ f ih =>
    intro prev counter
    simp only [hkdfBlocks, List.length_append, hmac_length, ih]
    ring

theorem derivedKeyOpt_isSome (ikm info : List Nat) :
    derivedKeyOpt ikm info = some ((hkdfBlocks (hmac (List.replicate 32 0) ikm) info [] 1 1).take 16) := by
  simp [derivedKeyOpt, hkdfExpand]

theorem derivedKey_length (ikm info : List Nat) : (derivedKey ikm info).length = 16 := by
  rw [derivedKey, derivedKeyOpt_isSome]
  simp only [Option.getD_some, List.length_take, hkdfBlocks_length]
  omega

/-! ## Length and round-trip facts for the metadata cipher -/
theorem bytesOfBlock_length (s : AESState) : (bytesOfBlock s).length = 16 := rfl

theorem flatten_length_const {α : Type} (f : α → List Nat) :
    ∀ l : List α, (∀ x ∈ l, (f x).length = 16) → ((l.map f).flatten).length = 16 * l.length := by
  intro l
  induction l with
  | nil => intro _; rfl
  | cons a t ih =>
    intro h
    simp only [List.map_cons, List.flatten_cons, List.length_append,
      h a (by simp), ih (fun x hx => h x (by simp [hx])), List.length_cons]
    ring

theorem ctrKeyStream_length (rks : List AESState) (iv : List Nat) (n : Nat) :
    (ctrKeyStream rks iv n).length = 16 * ((n + 15) / 16) := by
  rw [ctrKeyStream, flatten_length_const _ _ (fun x _ => bytesOfBlock_length _),
    List.length_range]

theorem keyStreamOpt_eq (key iv src : List Nat) (hk : key.length = 16) (hiv : iv.length = 16) :
    keyStreamOpt key iv src =
      some (List.zipWith (fun a b => a ^^^ b) src (ctrKeyStream (roundKeys key) iv src.length)) := by
  rw [keyStreamOpt, aesNewCipher, if_pos hk]
  simp [hiv]

theorem keyStream_length (key iv src : List Nat) (hk : key.length = 16) (hiv : iv.length = 16) :
    (keyStream key iv src).length = src.length := by
  rw [keyStream, keyStreamOpt_eq key iv src hk hiv, Option.getD_some, List.length_zipWith,
    ctrKeyStream_length]
  have : src.length ≤ 16 * ((src.length + 15) / 16) := by omega
  omega

theorem zipWith_xor_cancel :
    ∀ (l ks : List Nat), l.length ≤ ks.length →
      List.zipWith (fun a b => a ^^^ b) (List.zipWith (fun a b => a ^^^ b) l ks) ks = l := by
  intro l
  induction l with
  | nil => intro ks _; simp
  | cons a t ih =>
    intro ks hks
    cases ks with
    | nil => simp at hks
    | cons k kt =>
      simp only [List.zipWith_cons_cons, xorCancel, List.cons.injEq, true_and]
      exact ih kt (by simpa using hks)

/-! ## Round trip of the metadata cipher -/
theorem keyStream_roundtrip (key iv data : List Nat) (hk : key.length = 16)
    (hiv : iv.length = 16) : keyStream key iv (keyStream key iv data) = data := by
  have hlen : (keyStream key iv data).length = data.length := keyStream_length key iv data hk hiv
  conv_lhs => rw [keyStream, keyStreamOpt_eq _ _ _ hk hiv, Option.getD_some, hlen]
  rw [keyStream, keyStreamOpt_eq _ _ _ hk hiv, Option.getD_some]
  apply zipWith_xor_cancel
  rw [ctrKeyStream_length]
  omega

/-! ## The identifier block layout and injectivity of the identifier -/
theorem paddedData_eq (enin : Nat) :
    paddedData enin = [69, 78, 45, 82, 80, 73, 0, 0, 0, 0, 0, 0] ++ le32 enin := rfl

theorem bytesOfBlock_inj {s1 s2 : AESState} (h : bytesOfBlock s1 = bytesOfBlock s2) :
    s1 = s2 := by
  obtain ⟨⟨x0, x1, x2, x3⟩, ⟨y0, y1, y2, y3⟩, ⟨z0, z1, z2, z3⟩, ⟨w0, w1, w2, w3⟩⟩ := s1
  obtain ⟨⟨p0, p1, p2, p3⟩, ⟨q0, q1, q2, q3⟩, ⟨r0, r1, r2, r3⟩, ⟨v0, v1, v2, v3⟩⟩ := s2
  simp only [bytesOfBlock, b0, b1, b2, b3, List.cons.injEq, and_true] at h
  simp [Prod.mk.injEq]
  tauto

theorem NewRollingProximityIdentifier_length {rpik : List Nat} (h : rpik.length = 16)
    (enin : Nat) : (NewRollingProximityIdentifier rpik enin).length = 16 := by
  rw [NewRollingProximityIdentifier, aesEncryptBytes, aesNewCipher, if_pos h]
  exact bytesOfBlock_length _

theorem newRPI_inj {rpik : List Nat} (hlen : rpik.length = 16) {e1 e2 : Nat}
    (h1 : e1 < 4294967296) (h2 : e2 < 4294967296)
    (h : NewRollingProximityIdentifier rpik e1 = NewRollingProximityIdentifier rpik e2) :
    e1 = e2 := by
  simp only [NewRollingProximityIdentifier, aesEncryptBytes, aesNewCipher,
    if_pos hlen] at h
  have hblocks := aesEncryptBlock_inj (roundKeys rpik) _ _ (roundKeys_valid rpik)
    (blockOfBytes_valid _) (blockOfBytes_valid _) (bytesOfBlock_inj h)
  have h12 := congrArg (fun s => b0 s.2.2.2) hblocks
  have h13 := congrArg (fun s => b1 s.2.2.2) hblocks
  have h14 := congrArg (fun s => b2 s.2.2.2) hblocks
  have h15 := congrArg (fun s => b3 s.2.2.2) hblocks
  simp only [blockOfBytes, b0, b1, b2, b3, byteAt, paddedData_eq, le32] at h12 h13 h14 h15
  norm_num [List.getD] at h12 h13 h14 h15
  omega

theorem bytesEqual_iff : ∀ a b : List Nat, bytesEqual a b = true ↔ a = b := by
  intro a
  induction a with
  | nil => intro b; cases b <;> simp [bytesEqual]
  | cons x xs ih =>
    intro b
    cases b with
    | nil => simp [bytesEqual]
    | cons y ys =>
      by_cases hxy : x = y <;> simp [bytesEqual, hxy, ih]

/-! ## Matcher helper lemmas -/
theorem findSome?_range_eq_some {β : Type} (f : Nat → Option β) (n k : Nat) (v : β)
    (hk : k < n) (hnone : ∀ i, i < k → f i = none) (hsome : f k = some v) :
    (List.range n).findSome? f = some v := by
  induction n with
  | zero => omega
  | succ m ih =>
    rw [List.range_succ, List.findSome?_append]
    rcases Nat.lt_or_ge k m with hkm | hkm
    · rw [ih hkm]
      rfl
    · have hkm2 : k = m := by omega
      subst hkm2
      have hn : (List.range k).findSome? f = none := by
        rw [List.findSome?_eq_none_iff]
        intro x hx
        exact hnone x (List.mem_range.mp hx)
      rw [hn]
      simp [List.findSome?_cons, hsome]

/-- First-match behaviour of the variant-2 matcher loop: if the observed
identifier was generated at offset `k` of the disclosed window, the loop
stops exactly at `k` and the decryption inverts the metadata encryption. -/
theorem tryMatch_pos (tek : List Nat) (w k : Nat) (metadata : List Nat)
    (hw : w < 4294967296) (hk : k < EKRollingPeriod) :
    tryMatch tek w
      (NewRollingProximityIdentifier (NewRollingProximityIdentifierKey tek)
        ((w + k) % 4294967296))
      (XORKeyStreamAssociatedMetadata (NewAssociatedEncryptedMetadataKey tek)
        (NewRollingProximityIdentifier (NewRollingProximityIdentifierKey tek)
          ((w + k) % 4294967296)) metadata)
      = some (k, metadata) := by
  have hrpik : (NewRollingProximityIdentifierKey tek).length = 16 := derivedKey_length _ _
  have haemk : (NewAssociatedEncryptedMetadataKey tek).length = 16 := derivedKey_length _ _
  have hrpi : (NewRollingProximityIdentifier (NewRollingProximityIdentifierKey tek)
      ((w + k) % 4294967296)).length = 16 :=
    NewRollingProximityIdentifier_length hrpik _
  have hk144 : k < 144 := by simpa [EKRollingPeriod] using hk
  rw [tryMatch]
  apply findSome?_range_eq_some _ _ k _ hk
  · intro i hik
    have hne : NewRollingProximityIdentifier (NewRollingProximityIdentifierKey tek)
        ((w + i) % 4294967296) ≠
        NewRollingProximityIdentifier (NewRollingProximityIdentifierKey tek)
        ((w + k) % 4294967296) := by
      intro he
      have := newRPI_inj hrpik (Nat.mod_lt _ (by norm_num)) (Nat.mod_lt _ (by norm_num)) he
      omega

    simp only [bytesEqual_iff]
    simp [hne]
  · have heq : bytesEqual (NewRollingProximityIdentifier (NewRollingProximityIdentifierKey tek)
        ((w + k) % 4294967296)) (NewRollingProximityIdentifier
        (NewRollingProximityIdentifierKey tek) ((w + k) % 4294967296)) = true :=
      (bytesEqual_iff _ _).mpr rfl
    simp only [heq, if_true]
    rw [XORKeyStreamAssociatedMetadata, XORKeyStreamAssociatedMetadata,
      keyStream_roundtrip _ _ _ haemk hrpi]

/-- No-match behaviour of the variant-2 matcher loop: if the disclosed
window start is displaced by `d` (`uint32` subtraction) with
`144 ≤ d mod 2^32 ≤ 2^32 - 144`, no offset can reproduce an identifier
generated at `w + k`, `k < 144`. -/
theorem tryMatch_neg (tek : List Nat) (w k d : Nat) (aem : List Nat)
    (hw : w < 4294967296) (hk : k < EKRollingPeriod)
    (hd1 : 144 ≤ d % 4294967296) (hd2 : d % 4294967296 ≤ 4294967296 - 144) :
    tryMatch tek (sub32 w d)
      (NewRollingProximityIdentifier (NewRollingProximityIdentifierKey tek)
        ((w + k) % 4294967296)) aem = none := by
  have hrpik : (NewRollingProximityIdentifierKey tek).length = 16 := derivedKey_length _ _
  have hk144 : k < 144 := by simpa [EKRollingPeriod] using hk
  rw [tryMatch, List.findSome?_eq_none_iff]
  intro i hi
  have hi144 : i < 144 := List.mem_range.mp hi
  have hne : NewRollingProximityIdentifier (NewRollingProximityIdentifierKey tek)
      ((sub32 w d + i) % 4294967296) ≠
      NewRollingProximityIdentifier (NewRollingProximityIdentifierKey tek)
      ((w + k) % 4294967296) := by
    intro he
    have := newRPI_inj hrpik (Nat.mod_lt _ (by norm_num)) (Nat.mod_lt _ (by norm_num)) he
    rw [sub32] at this
    omega
  simp only [bytesEqual_iff]
  simp [hne]

theorem le_foldr_max (l : List Nat) : ∀ x ∈ l, x ≤ l.foldr max 0 := by
  induction l with
  | nil => simp
  | cons a t ih =>
    intro x hx
    rcases List.mem_cons.mp hx with rfl | hx
    · exact Nat.le_max_left _ _
    · exact le_trans (ih x hx) (Nat.le_max_right _ _)

theorem heapFresh_not_mem (h : Heap) (id : Nat) (hid : (heapLookup h id).isSome) :
    id ≠ heapFresh h := by
  intro he
  rw [heapLookup] at hid
  rcases ho : h.find? fun p => p.1 == id with _ | p
  · rw [ho] at hid; simp at hid
  · have hmem := List.mem_of_find?_eq_some ho
    have hpred := List.find?_some ho
    have hple : p.1 ≤ (h.map Prod.fst).foldr max 0 :=
      le_foldr_max _ _ (List.mem_map.mpr ⟨p, hmem, rfl⟩)
    have : p.1 = id := by simpa using hpred
    rw [this, he, heapFresh] at hple
    omega

theorem heapLookup_cons_ne (h : Heap) (e : Nat × List Nat) (id : Nat) (hne : id ≠ e.1) :
    heapLookup (e :: h) id = heapLookup h id := by
  rw [heapLookup, heapLookup, List.find?_cons]
  have : (e.1 == id) = false := by simpa using fun hc => hne hc.symm
  rw [this]

theorem heapLookup_update_ne (h : Heap) (dst id : Nat) (v : List Nat) (hne : id ≠ dst) :
    heapLookup (h.map fun p => if p.1 = dst then (p.1, v) else p) id = heapLookup h id := by
  induction h with
  | nil => rfl
  | cons e t ih =>
    rw [List.map_cons, heapLookup, heapLookup, List.find?_cons, List.find?_cons]
    have hfst : (if e.1 = dst then (e.1, v) else e).1 = e.1 := by
      split <;> rfl
    rcases hcase : (e.1 == id) with _ | _
    · rw [hfst, hcase]
      exact ih
    · rw [hfst, hcase]
      have he1 : e.1 = id := by simpa using hcase
      have : (if e.1 = dst then (e.1, v) else e) = e := by
        have : ¬ e.1 = dst := by rw [he1]; exact hne
        simp [this]
      rw [this]

theorem heapLookup_update_hit (h : Heap) (dst : Nat) (v w : List Nat)
    (hd : heapLookup h dst = some w) :
    heapLookup (h.map fun p => if p.1 = dst then (p.1, v) else p) dst = some v := by
  induction h with
  | nil => simp [heapLookup] at hd
  | cons e t ih =>
    rw [List.map_cons, heapLookup, List.find?_cons]
    have hfst : (if e.1 = dst then (e.1, v) else e).1 = e.1 := by
      split <;> rfl
    rcases hcase : (e.1 == dst) with _ | _
    · rw [hfst, hcase]
      apply ih
      rw [heapLookup, List.find?_cons, hcase] at hd
      exact hd
    · rw [hfst, hcase]
      have he1 : e.1 = dst := by simpa using hcase
      simp [he1]

theorem keyStreamHeap_frame (key iv : List Nat) (h : Heap) (src : Nat) (data : List Nat)
    (hk : key.length = 16) (hiv : iv.length = 16) (hsrc : heapLookup h src = some data) :
    heapLookup (keyStreamHeap key iv h src).1 src = some data ∧
    (keyStreamHeap key iv h src).2 ≠ src ∧
    heapLookup (keyStreamHeap key iv h src).1 (keyStreamHeap key iv h src).2 =
      some (keyStream key iv data) ∧
    (keyStream key iv data).length = data.length := by
  have hne : src ≠ heapFresh h := heapFresh_not_mem h src (by rw [hsrc]; rfl)
  have hkey : aesNewCipher key = some (roundKeys key) := by rw [aesNewCipher, if_pos hk]
  simp only [keyStreamHeap, hkey, heapAlloc, heapXORKeyStream]
  have hlook : heapLookup ((heapFresh h, List.replicate ((heapLookup h src).getD [] ).length 0) :: h) src
      = some data := by
    rw [heapLookup_cons_ne _ _ _ hne]
    exact hsrc
  have hsval : (heapLookup ((heapFresh h, List.replicate ((heapLookup h src).getD [] ).length 0) :: h) src).getD []
      = data := by rw [hlook]; rfl
  have hdlook : heapLookup ((heapFresh h, List.replicate ((heapLookup h src).getD [] ).length 0) :: h)
      (heapFresh h) = some (List.replicate ((heapLookup h src).getD [] ).length 0) := by
    rw [heapLookup, List.find?_cons]
    simp
  have hks : keyStream key iv data =
      List.zipWith (fun a b => a ^^^ b) data (ctrKeyStream (roundKeys key) iv data.length) := by
    rw [keyStream, keyStreamOpt_eq key iv data hk hiv, Option.getD_some]
  refine ⟨?_, fun hc => hne hc.symm, ?_, ?_⟩
  · rw [hsval, heapLookup_update_ne _ _ _ _ hne]
    exact hlook
  · rw [hsval, heapLookup_update_hit _ _ _ _ hdlook, hks]
  · rw [hks, List.length_zipWith, ctrKeyStream_length]
    have : data.length ≤ 16 * ((data.length + 15) / 16) := by omega
    omega

/-! ## Further matcher facts used by the claims -/
theorem tryMatchV1_eq_tryMatch : tryMatchV1 = tryMatch := rfl

theorem tryMatch_none_of (tek : List Nat) (w e : Nat) (aem : List Nat)
    (he : e < 4294967296) (h : ∀ i, i < 144 → (w + i) % 4294967296 ≠ e) :
    tryMatch tek w
      (NewRollingProximityIdentifier (NewRollingProximityIdentifierKey tek) e) aem = none := by
  have hrpik : (NewRollingProximityIdentifierKey tek).length = 16 := derivedKey_length _ _
  rw [tryMatch, List.findSome?_eq_none_iff]
  intro i hi
  have hi144 : i < 144 := by simpa [EKRollingPeriod] using List.mem_range.mp hi
  have hne : NewRollingProximityIdentifier (NewRollingProximityIdentifierKey tek)
      ((w + i) % 4294967296) ≠
      NewRollingProximityIdentifier (NewRollingProximityIdentifierKey tek) e := by
    intro hc
    exact h i hi144 (newRPI_inj hrpik (Nat.mod_lt _ (by norm_num)) he hc)
  simp only [bytesEqual_iff]
  simp [hne]

/-! ## The claims -/
/-- Claim C1: positive match.  For every root secret `tek`, window start
`w` (a `uint32`), offset `k < 144` and plaintext metadata, if the observed
identifier was computed at interval `w + k` from the derived identifier key
and the observed encrypted metadata was produced by the metadata cipher
under the derived metadata key and that identifier, then the matcher loop
finds the match at offset `k` and the decrypted metadata is the original
plaintext. -/
theorem claimC1 (tek : List Nat) (w k : Nat) (metadata : List Nat)
    (hw : w < 4294967296) (hk : k < 144) :
    tryMatch tek w
      (NewRollingProximityIdentifier (NewRollingProximityIdentifierKey tek)
        ((w + k) % 4294967296))
      (XORKeyStreamAssociatedMetadata (NewAssociatedEncryptedMetadataKey tek)
        (NewRollingProximityIdentifier (NewRollingProximityIdentifierKey tek)
          ((w + k) % 4294967296)) metadata)
      = some (k, metadata) :=
  tryMatch_pos tek w k metadata hw (by simpa [EKRollingPeriod] using hk)

/-- Witness for C1 at a concrete root secret, window start 144, offset 4. -/
theorem claimC1_witness :
    tryMatch (List.replicate 16 0) 144
      (NewRollingProximityIdentifier (NewRollingProximityIdentifierKey (List.replicate 16 0))
        ((144 + 4) % 4294967296))
      (XORKeyStreamAssociatedMetadata (NewAssociatedEncryptedMetadataKey (List.replicate 16 0))
        (NewRollingProximityIdentifier (NewRollingProximityIdentifierKey (List.replicate 16 0))
          ((144 + 4) % 4294967296)) metadataMsg)
      = some (4, metadataMsg) :=
  claimC1 (List.replicate 16 0) 144 4 metadataMsg (by norm_num) (by norm_num)

/-- Claim C2: round trip.  For every 16-byte metadata key, every 16-byte
identifier and every byte sequence, applying
`XORKeyStreamAssociatedMetadata` twice with the same key and identifier
returns the original data. -/
theorem claimC2 (aemk rpi data : List Nat) (hk : aemk.length = 16) (hr : rpi.length = 16) :
    XORKeyStreamAssociatedMetadata aemk rpi (XORKeyStreamAssociatedMetadata aemk rpi data)
      = data :=
  keyStream_roundtrip aemk rpi data hk hr

/-- Witness for C2 at concrete key, identifier and data. -/
theorem claimC2_witness :
    XORKeyStreamAssociatedMetadata (List.replicate 16 0) (List.replicate 16 255)
      (XORKeyStreamAssociatedMetadata (List.replicate 16 0) (List.replicate 16 255) metadataMsg)
      = metadataMsg :=
  claimC2 (List.replicate 16 0) (List.replicate 16 255) metadataMsg (by norm_num) (by norm_num)

/-- Claim C3 as stated is false: shifting the window start by a nonzero
whole number of rolling periods does NOT always prevent a match, because
the shift is a `uint32` subtraction and wraps.  At `m = 2^28` rolling
periods the shift `144 * 2^28` is `0 mod 2^32`, the shifted window equals
the original one, and the matcher still reports a match. -/
theorem claimC3_counterexample :
    tryMatch (List.replicate 16 0) (sub32 144 (EKRollingPeriod * 268435456))
      (NewRollingProximityIdentifier (NewRollingProximityIdentifierKey (List.replicate 16 0))
        ((144 + 0) % 4294967296))
      (XORKeyStreamAssociatedMetadata (NewAssociatedEncryptedMetadataKey (List.replicate 16 0))
        (NewRollingProximityIdentifier (NewRollingProximityIdentifierKey (List.replicate 16 0))
          ((144 + 0) % 4294967296)) metadataMsg)
      ≠ none := by
  have hsub : sub32 144 (EKRollingPeriod * 268435456) = 144 := by decide
  rw [hsub, tryMatch_pos (List.replicate 16 0) 144 0 metadataMsg (by norm_num)
    (by norm_num [EKRollingPeriod])]
  simp

/-- Claim C3 (amended): stale window, negative match.  For every root
secret, window start `w < 2^32`, offset `k < 144` and observed encrypted
metadata, if the disclosed window start is `w` shifted down by `m` rolling
periods (`uint32` subtraction) where the reduced shift
`144 * m mod 2^32` lies between 144 and `2^32 - 144` — in particular for
`m = 3` (the three rolling periods of the spec) and for `m = 30` (the
`EKRollingPeriod*10*3` shift the demo code uses) — then the matcher scans
all 144 offsets, finds no matching identifier, and reports no match. -/
theorem claimC3_amended (tek : List Nat) (w k m : Nat) (aem : List Nat)
    (hw : w < 4294967296) (hk : k < 144)
    (hm1 : 144 ≤ 144 * m % 4294967296) (hm2 : 144 * m % 4294967296 ≤ 4294967296 - 144) :
    tryMatch tek (sub32 w (EKRollingPeriod * m))
      (NewRollingProximityIdentifier (NewRollingProximityIdentifierKey tek)
        ((w + k) % 4294967296)) aem = none := by
  have he : EKRollingPeriod * m = 144 * m := by norm_num [EKRollingPeriod]
  rw [he]
  exact tryMatch_neg tek w k (144 * m) aem hw (by simpa [EKRollingPeriod] using hk) hm1 hm2

/-- Witness for the amended C3 at `m = 3`, the shift named by the spec. -/
theorem claimC3_witness :
    tryMatch (List.replicate 16 0) (sub32 1440 (EKRollingPeriod * 3))
      (NewRollingProximityIdentifier (NewRollingProximityIdentifierKey (List.replicate 16 0))
        ((1440 + 7) % 4294967296)) metadataMsg = none :=
  claimC3_amended (List.replicate 16 0) 1440 7 3 metadataMsg (by norm_num) (by norm_num)
    (by norm_num) (by norm_num)

/-- Claim C4 as stated is false: the matcher compares identifiers with
`bytes.Equal`, whose reference comparison loop short-circuits at the first
differing byte; two equal-length 16-byte comparisons can take 1 versus 16
byte comparisons, so the comparison is not fixed-time full-length. -/
theorem claimC4_counterexample :
    bytesEqualSteps (1 :: List.replicate 15 0) (List.replicate 16 0) = 1 ∧
    bytesEqualSteps (List.replicate 16 0) (List.replicate 16 0) = 16 := by
  constructor <;> decide

/-- Claim C4 (amended): the comparison of the matcher, `bytes.Equal` decides
exact content equality, but it is a short-circuiting comparison, not a
fixed-time one: it performs at most `a.length` byte comparisons and
performs the full `a.length` comparisons only when the inputs are equal
(the counterexample shows a mismatch stopping after one comparison). -/
theorem claimC4_amended (a b : List Nat) :
    (bytesEqual a b = true ↔ a = b) ∧
    bytesEqualSteps a b ≤ a.length ∧
    (bytesEqual a b = true → bytesEqualSteps a b = a.length) := by
  have hle : ∀ x y : List Nat, prefixSteps x y ≤ x.length := by
    intro x
    induction x with
    | nil => intro y; cases y <;> simp [prefixSteps]
    | cons a as ih =>
      intro y
      cases y with
      | nil => simp [prefixSteps]
      | cons b bs =>
        by_cases hab : a = b <;> simp [prefixSteps, hab]
        have := ih bs
        omega
  have hself : ∀ x : List Nat, prefixSteps x x = x.length := by
    intro x
    induction x with
    | nil => rfl
    | cons a as ih =>
      simp [prefixSteps, ih]
      omega
  refine ⟨bytesEqual_iff a b, ?_, ?_⟩
  · rw [bytesEqualSteps]
    split
    · exact hle a b
    · omega
  · intro heq
    have hab : a = b := (bytesEqual_iff a b).mp heq
    subst hab
    simp [bytesEqualSteps, hself]

/-- Witness for the amended C4 at a concrete pair of equal inputs. -/
theorem claimC4_witness : bytesEqualSteps [7, 8, 9] [7, 8, 9] = 3 :=
  (claimC4_amended [7, 8, 9] [7, 8, 9]).2.2 (by decide)

/-- At any time whose interval number is 140 above an aligned window start
of 0 (with the broadcast interval falling at 144), the two demo variants
disagree: variant 1 finds the genuine diagnosis key, variant 2 does not. -/
theorem variants_differ_at (t : Int) (tek tek2 : List Nat)
    (h140 : NewENIntervalNumber t = 140) (h0 : NewRollingStartNumber t = 0)
    (h144 : NewENIntervalNumber (t + 2520) = 144) :
    variant1Run t tek tek2 ≠ variant2Run t tek tek2 := by
  intro heq
  simp only [variant1Run, variant2Run, tryMatchV1_eq_tryMatch,
    NewAssociatedEncryptedMetadata, h140, h0, h144, List.cons.injEq, and_true] at heq
  obtain ⟨h1, -, -⟩ := heq
  have hpos := tryMatch_pos tek 140 4 metadataMsg (by norm_num) (by norm_num [EKRollingPeriod])
  rw [show ((140 + 4) % 4294967296 : Nat) = 144 from by norm_num] at hpos
  have hnone := tryMatch_none_of tek 0 144
    (XORKeyStreamAssociatedMetadata (NewAssociatedEncryptedMetadataKey tek)
      (NewRollingProximityIdentifier (NewRollingProximityIdentifierKey tek) 144) metadataMsg)
    (by norm_num) (fun i hi => by omega)
  rw [hpos, hnone] at h1
  exact Option.noConfusion h1

/-- Claim C5 as stated is false: the two demo variants do not compute the
same rolling start number (variant 1 uses the unaligned interval number,
variant 2 aligns down to a multiple of 144), and at a time near the end of
a rolling window — Unix time 84000, interval 140 — variant 1 finds a match
for the genuine diagnosis key while variant 2 reports no match. -/
theorem claimC5_counterexample :
    NewENIntervalNumber 84000 ≠ NewRollingStartNumber 84000 ∧
    variant1Run 84000 (List.replicate 16 0) (List.replicate 16 0) ≠
      variant2Run 84000 (List.replicate 16 0) (List.replicate 16 0) :=
  ⟨by decide, variants_differ_at 84000 (List.replicate 16 0) (List.replicate 16 0)
    (by decide) (by decide) (by decide)⟩

/-- Claim C5 (amended): the two demo variants compute the same rolling
start number exactly when the interval number of the start time is already
a multiple of 144, and whenever that is the case the two variants produce
identical match outcomes on the same random secrets; in general their
rolling start numbers (and, near the end of a rolling window, their
outcomes) differ. -/
theorem claimC5_amended (t : Int) :
    (NewENIntervalNumber t = NewRollingStartNumber t ↔ NewENIntervalNumber t % 144 = 0) ∧
    (NewENIntervalNumber t % 144 = 0 →
      ∀ tek tek2 : List Nat, variant1Run t tek tek2 = variant2Run t tek tek2) := by
  have hiff : NewENIntervalNumber t = NewRollingStartNumber t ↔
      NewENIntervalNumber t % 144 = 0 := by
    rw [NewRollingStartNumber, EKRollingPeriod]
    omega
  refine ⟨hiff, fun hmod tek tek2 => ?_⟩
  have he : NewENIntervalNumber t = NewRollingStartNumber t := hiff.mpr hmod
  simp only [variant1Run, variant2Run, tryMatchV1_eq_tryMatch,
    NewAssociatedEncryptedMetadata, he]

/-- Witness for the amended C5 at time 0, whose interval number 0 is
aligned. -/
theorem claimC5_witness :
    variant1Run 0 (List.replicate 16 0) (List.replicate 16 1) =
      variant2Run 0 (List.replicate 16 0) (List.replicate 16 1) :=
  (claimC5_amended 0).2 (by decide) (List.replicate 16 0) (List.replicate 16 1)

/-- Claim C6: window alignment.  For every timestamp at or after the Unix
epoch, the rolling start number is a multiple of 144 and the interval
number lies in the window `[rollingStart, rollingStart + 144)`. -/
theorem claimC6 (t : Int) (ht : 0 ≤ t) :
    144 ∣ NewRollingStartNumber t ∧
    NewRollingStartNumber t ≤ NewENIntervalNumber t ∧
    NewENIntervalNumber t < NewRollingStartNumber t + 144 := by
  refine ⟨⟨NewENIntervalNumber t / 144, by rw [NewRollingStartNumber, EKRollingPeriod]; ring⟩, ?_⟩
  rw [NewRollingStartNumber, EKRollingPeriod]
  omega

/-- Witness for C6 at Unix time 84000. -/
theorem claimC6_witness :
    144 ∣ NewRollingStartNumber 84000 ∧
    NewRollingStartNumber 84000 ≤ NewENIntervalNumber 84000 ∧
    NewENIntervalNumber 84000 < NewRollingStartNumber 84000 + 144 :=
  claimC6 84000 (by norm_num)

/-- Claim C7: identifier construction.  For every identifier key and every
interval number, the rolling proximity identifier is the AES-128
encryption, under that key, of the single 16-byte block holding the ASCII
bytes of `"EN-RPI"` at offsets 0-5, zero bytes at offsets 6-11 and the
interval number as an unsigned 32-bit little-endian integer at
offsets 12-15. -/
theorem claimC7 (rpik : List Nat) (enin : Nat) :
    NewRollingProximityIdentifier rpik enin =
      aesEncryptBytes rpik ([69, 78, 45, 82, 80, 73] ++ List.replicate 6 0 ++
        [enin % 256, enin / 256 % 256, enin / 65536 % 256, enin / 16777216 % 256]) := rfl

/-- Claim C8: the error branches of the primitives are unreachable.  For
every 16-byte key, `aes.NewCipher` succeeds; for every input keying
material and context label, the HKDF read of 16 bytes succeeds; hence the
two key derivations always yield full 16-byte keys, and the metadata
cipher always constructs (its Option is `some`) for 16-byte keys and
identifiers. -/
theorem claimC8 :
    (∀ key : List Nat, key.length = 16 → (aesNewCipher key).isSome = true) ∧
    (∀ ikm info : List Nat, (derivedKeyOpt ikm info).isSome = true) ∧
    (∀ tek : List Nat, (NewRollingProximityIdentifierKey tek).length = 16 ∧
      (NewAssociatedEncryptedMetadataKey tek).length = 16) ∧
    (∀ aemk rpi data : List Nat, aemk.length = 16 → rpi.length = 16 →
      (keyStreamOpt aemk rpi data).isSome = true) := by
  refine ⟨?_, ?_, ?_, ?_⟩
  · intro key hk
    rw [aesNewCipher, if_pos hk]
    rfl
  · intro ikm info
    rw [derivedKeyOpt_isSome]
    rfl
  · intro tek
    exact ⟨derivedKey_length _ _, derivedKey_length _ _⟩
  · intro aemk rpi data hk hr
    rw [keyStreamOpt_eq _ _ _ hk hr]
    rfl

/-- Witness for C8 at concrete keys and inputs. -/
theorem claimC8_witness :
    (aesNewCipher (List.replicate 16 0)).isSome = true ∧
    (derivedKeyOpt (List.replicate 16 0) enRPIKLabel).isSome = true ∧
    (keyStreamOpt (List.replicate 16 0) (List.replicate 16 2) metadataMsg).isSome = true :=
  ⟨claimC8.1 (List.replicate 16 0) (by norm_num),
   claimC8.2.1 (List.replicate 16 0) enRPIKLabel,
   claimC8.2.2.2 (List.replicate 16 0) (List.replicate 16 2) metadataMsg
     (by norm_num) (by norm_num)⟩

/-- Claim C9: frame property of the metadata cipher.  In the buffer-level
embedding of `keyStream`, for every heap, every source buffer holding
`data`, every 16-byte key and 16-byte IV: after the call the source buffer
still holds exactly `data`; the result is a distinct, freshly allocated
buffer; that buffer holds the key-stream XOR of `data`; and its length
equals the length of `data`. -/
theorem claimC9 (key iv : List Nat) (h : Heap) (src : Nat) (data : List Nat)
    (hk : key.length = 16) (hiv : iv.length = 16) (hsrc : heapLookup h src = some data) :
    heapLookup (keyStreamHeap key iv h src).1 src = some data ∧
    (keyStreamHeap key iv h src).2 ≠ src ∧
    heapLookup (keyStreamHeap key iv h src).1 (keyStreamHeap key iv h src).2 =
      some (keyStream key iv data) ∧
    (keyStream key iv data).length = data.length :=
  keyStreamHeap_frame key iv h src data hk hiv hsrc

/-- Witness for C9 at a one-buffer heap. -/
theorem claimC9_witness :
    heapLookup (keyStreamHeap (List.replicate 16 0) (List.replicate 16 3)
      [(0, [10, 20, 30])] 0).1 0 = some [10, 20, 30] ∧
    (keyStreamHeap (List.replicate 16 0) (List.replicate 16 3) [(0, [10, 20, 30])] 0).2 ≠ 0 ∧
    heapLookup (keyStreamHeap (List.replicate 16 0) (List.replicate 16 3)
        [(0, [10, 20, 30])] 0).1
      (keyStreamHeap (List.replicate 16 0) (List.replicate 16 3) [(0, [10, 20, 30])] 0).2 =
      some (keyStream (List.replicate 16 0) (List.replicate 16 3) [10, 20, 30]) ∧
    (keyStream (List.replicate 16 0) (List.replicate 16 3) [10, 20, 30]).length = 3 :=
  claimC9 (List.replicate 16 0) (List.replicate 16 3) [(0, [10, 20, 30])] 0 [10, 20, 30]
    (by norm_num) (by norm_num) (by decide)

/-- Claim C10: `NewENIntervalNumber` is total and deterministic on every
timestamp, including pre-epoch ones: it returns the truncated-toward-zero
quotient `t / 600` reduced modulo `2^32`; one second before the epoch
yields interval 0 (truncation toward zero), and 600 seconds before the
epoch wraps to `2^32 - 1`. -/
theorem claimC10 :
    (∀ t : Int, (NewENIntervalNumber t : Int) = Int.tdiv t 600 % 4294967296) ∧
    NewENIntervalNumber (-1) = 0 ∧
    NewENIntervalNumber (-600) = 4294967295 := by
  refine ⟨?_, by decide, by decide⟩
  intro t
  rw [NewENIntervalNumber, toUInt32, Int.toNat_of_nonneg (Int.emod_nonneg _ (by norm_num))]
